import Mathlib

/-!
Verification development for the `zoom-and-edit-folio` portfolio canvas
application.  The definitions below are a shallow embedding of the
TypeScript source:

* the entity data model (`src/data/portfolioData.ts`,
  `src/components/portfolio/TextElement.tsx`);
* pasted-URL classification `processUrl` (`AddMediaDialog`);
* media-source resolution `getMediaSrc` (`src/components/portfolio/MediaItem.tsx`),
  over a small model of the browser `URL` / `URLSearchParams` objects
  (fragments and host normalisation are not modelled; a URL is a base
  part before the first question mark plus a parsed query list);
* the drawing layer (`src/components/portfolio/DrawingCanvas.tsx`) as an
  event-driven state machine whose raster is a display list of stroked
  segments and whose `toDataURL` is modelled as an explicit serialisation;
* the application store of `src/components/portfolio/PortfolioCanvas.tsx`:
  the collection update and delete helpers, `saveLayout`'s JSON document,
  the `portfolio.json` load handler, and a step function over UI events.

JavaScript numbers are modelled as `Int` (no fractional coordinates are
needed by any property proved here) and JavaScript strings as `String`.
A JSON field that may be absent, present-but-ill-typed, or well typed is
modelled by the three-valued `Field` type, mirroring the
`data.x && Array.isArray(data.x)` / `typeof data.x === 'string'` checks
performed by the load handler.
-/

set_option maxHeartbeats 1000000

namespace ZoomFolio

/-- Media source kinds, from the `type` union of `MediaItem` in
`src/data/portfolioData.ts`: `'gdrive' | 'local' | 'youtube'`. -/
inductive MediaType where
  | gdrive
  | youtube
  | local
deriving DecidableEq, Repr

/-- A media item, from the `MediaItem` interface of
`src/data/portfolioData.ts`.  `driveId` and `src` are optional there. -/
structure MediaItem where
  id : String
  type : MediaType
  driveId : Option String := none
  src : Option String := none
  x : Int
  y : Int
  width : Int
  title : String
  description : String
deriving DecidableEq, Repr

/-- A category label, from the `CategoryLabel` interface of
`src/data/portfolioData.ts`. -/
structure CategoryLabel where
  id : String
  text : String
  x : Int
  y : Int
deriving DecidableEq, Repr

/-- A text element, from the `TextElementType` interface of
`src/components/portfolio/TextElement.tsx` (`width` is optional there). -/
structure TextElementType where
  id : String
  text : String
  x : Int
  y : Int
  fontSize : Int
  fontFamily : String
  color : String
  bold : Bool
  italic : Bool
  underline : Bool
  width : Option Int := none
deriving DecidableEq, Repr

/-! ### Partial updates

`updateMediaItem` / `updateTextElement` / `updateCategory` receive a
`Partial<...>` object and merge it with object spread:
`{ ...item, ...updates }`.  The update records below carry exactly the
attributes that the source's call sites ever pass (drag and resize pass
`x`, `y`, `width`; the style toolbar passes text-style attributes; no
caller ever passes `id`), one `Option` per attribute, `none` meaning the
key is absent from the partial object. -/

/-- Partial update for media items: the keys passed by `Rnd` callbacks in
`MediaItem.tsx` (`{x, y}` on drag stop, `{width, x, y}` on resize stop). -/
structure MediaItemUpdate where
  x : Option Int := none
  y : Option Int := none
  width : Option Int := none
deriving DecidableEq, Repr

/-- Partial update for category labels (`{x, y}` on drag stop). -/
structure CategoryUpdate where
  x : Option Int := none
  y : Option Int := none
deriving DecidableEq, Repr

/-- Partial update for text elements: keys passed by `TextElement.tsx`
(`{text}`, `{x, y}`, `{width, x, y}`) and `TextStyleToolbar.tsx`
(font size, family, color, bold, italic, underline). -/
structure TextUpdate where
  text : Option String := none
  x : Option Int := none
  y : Option Int := none
  width : Option Int := none
  fontSize : Option Int := none
  fontFamily : Option String := none
  color : Option String := none
  bold : Option Bool := none
  italic : Option Bool := none
  underline : Option Bool := none
deriving DecidableEq, Repr

/-- Object-spread merge `{ ...item, ...updates }` for a media item. -/
def applyMediaUpdate (it : MediaItem) (u : MediaItemUpdate) : MediaItem :=
  { it with x := u.x.getD it.x, y := u.y.getD it.y, width := u.width.getD it.width }

/-- Object-spread merge `{ ...cat, ...updates }` for a category label. -/
def applyCategoryUpdate (c : CategoryLabel) (u : CategoryUpdate) : CategoryLabel :=
  { c with x := u.x.getD c.x, y := u.y.getD c.y }

/-- Object-spread merge `{ ...el, ...updates }` for a text element. -/
def applyTextUpdate (el : TextElementType) (u : TextUpdate) : TextElementType :=
  { el with
    text := u.text.getD el.text
    x := u.x.getD el.x
    y := u.y.getD el.y
    width := match u.width with | some w => some w | none => el.width
    fontSize := u.fontSize.getD el.fontSize
    fontFamily := u.fontFamily.getD el.fontFamily
    color := u.color.getD el.color
    bold := u.bold.getD el.bold
    italic := u.italic.getD el.italic
    underline := u.underline.getD el.underline }

/-- `updateMediaItem` from `PortfolioCanvas.tsx`:
`items.map((item) => (item.id === id ? { ...item, ...updates } : item))`. -/
def updateMediaItemL (id : String) (u : MediaItemUpdate) (items : List MediaItem) :
    List MediaItem :=
  items.map fun it => if it.id = id then applyMediaUpdate it u else it

/-- `deleteMediaItem` from `PortfolioCanvas.tsx`:
`items.filter((item) => item.id !== id)`. -/
def deleteMediaItemL (id : String) (items : List MediaItem) : List MediaItem :=
  items.filter fun it => it.id != id

/-- `updateCategory` from `PortfolioCanvas.tsx`. -/
def updateCategoryL (id : String) (u : CategoryUpdate) (cats : List CategoryLabel) :
    List CategoryLabel :=
  cats.map fun c => if c.id = id then applyCategoryUpdate c u else c

/-- `updateTextElement` from `PortfolioCanvas.tsx`:
`elements.map((el) => (el.id === id ? { ...el, ...updates } : el))`. -/
def updateTextElementL (id : String) (u : TextUpdate) (els : List TextElementType) :
    List TextElementType :=
  els.map fun el => if el.id = id then applyTextUpdate el u else el

/-- The filter inside `deleteTextElement` from `PortfolioCanvas.tsx`:
`elements.filter((el) => el.id !== id)`. -/
def deleteTextElementL (id : String) (els : List TextElementType) : List TextElementType :=
  els.filter fun el => el.id != id

/-! ### Pasted-URL classification (`processUrl` in `AddMediaDialog.tsx`)

The three regular expressions used by `processUrl` all have the shape
"literal text followed by a nonempty capture of a run of characters drawn
from a class".  A JavaScript `String.match` scans the candidate start
positions left to right and returns the first successful match, which is
what `scanWith` implements. -/

/-- Try to match, at the start of `s`, the literal `lit` followed by a
nonempty maximal run of characters satisfying `p`; return the captured
run.  This is `lit` followed by a capture group such as a
bracket-class-plus in the source's regular expressions. -/
def tryLitRun (lit : List Char) (p : Char → Bool) (s : List Char) : Option (List Char) :=
  if lit.isPrefixOf s then
    let run := (s.drop lit.length).takeWhile p
    if run.isEmpty then none else some run
  else none

/-- Scan all start positions of the input left to right with `tryAt`,
returning the first success — JavaScript regular-expression search. -/
def scanWith {α : Type} (tryAt : List Char → Option α) : List Char → Option α
  | [] => none
  | c :: cs => (tryAt (c :: cs)).orElse fun _ => scanWith tryAt cs

/-- The literal part of the Drive pattern
`drive\.google\.com\/file\/d\/([^\/]+)`. -/
def driveLit : List Char := "drive.google.com/file/d/".data

/-- The first YouTube alternative `youtube\.com\/watch\?v=`. -/
def youtubeLit1 : List Char := "youtube.com/watch?v=".data

/-- The second YouTube alternative `youtu\.be\/`. -/
def youtubeLit2 : List Char := "youtu.be/".data

/-- The literal part of the Vimeo pattern `vimeo\.com\/(\d+)`. -/
def vimeoLit : List Char := "vimeo.com/".data

/-- One attempt of the Drive regular expression at a fixed position. -/
def tryDriveAt (s : List Char) : Option (List Char) :=
  tryLitRun driveLit (fun c => c != '/') s

/-- One attempt of the YouTube regular expression at a fixed position:
the alternation tries `youtube.com/watch?v=` first, then `youtu.be/`,
each followed by the capture `([^&]+)`. -/
def tryYoutubeAt (s : List Char) : Option (List Char) :=
  (tryLitRun youtubeLit1 (fun c => c != '&') s).orElse fun _ =>
    tryLitRun youtubeLit2 (fun c => c != '&') s

/-- One attempt of the Vimeo regular expression at a fixed position. -/
def tryVimeoAt (s : List Char) : Option (List Char) :=
  tryLitRun vimeoLit (fun c => c.isDigit) s

/-- `inputUrl.match(/drive\.google\.com\/file\/d\/([^\/]+)/)`, returning
the capture group. -/
def driveMatch (s : List Char) : Option (List Char) := scanWith tryDriveAt s

/-- `inputUrl.match(/(?:youtube\.com\/watch\?v=|youtu\.be\/)([^&]+)/)`. -/
def youtubeMatch (s : List Char) : Option (List Char) := scanWith tryYoutubeAt s

/-- `inputUrl.match(/vimeo\.com\/(\d+)/)`. -/
def vimeoMatch (s : List Char) : Option (List Char) := scanWith tryVimeoAt s

/-- The classification object returned by `processUrl`: a `type` tag and
the `driveId` or `src` key it sets. -/
structure UrlClass where
  type : MediaType
  driveId : Option String := none
  src : Option String := none
deriving DecidableEq, Repr

/-- `processUrl` from `AddMediaDialog.tsx`: Drive, then YouTube, then
Vimeo, then the direct-URL fallback; first match wins. -/
def processUrl (inputUrl : String) : UrlClass :=
  match driveMatch inputUrl.data with
  | some cap => { type := .gdrive, driveId := some (String.mk cap) }
  | none =>
    match youtubeMatch inputUrl.data with
    | some cap =>
      { type := .youtube, src := some ("https://www.youtube.com/embed/" ++ String.mk cap) }
    | none =>
      match vimeoMatch inputUrl.data with
      | some cap =>
        { type := .local, src := some ("https://player.vimeo.com/video/" ++ String.mk cap) }
      | none => { type := .local, src := some inputUrl }

/-- Substring test (used to state properties such as "the embed URL
contains the video id"). -/
def containsSub (pat s : List Char) : Bool :=
  match s with
  | [] => pat.isPrefixOf ([] : List Char)
  | _ :: cs => pat.isPrefixOf s || containsSub pat cs

/-! ### A small model of the browser `URL` object

`getMediaSrc` in `MediaItem.tsx` does `new URL(src)`, forces
`searchParams.set('autoplay', '0')` and re-serialises with `toString()`.
The model keeps the part of the URL before the first question mark
verbatim (`base`) and parses the query string into key/value pairs.
`new URL` throws on strings without a scheme; the model's parser returns
`none` exactly when the input does not start with a nonempty alphabetic
scheme followed by `://`.  Fragments and host normalisation are not
modelled. -/

/-- A parsed URL: the part before the first question mark, and the query
parameters in order. -/
structure UrlParts where
  base : List Char
  query : List (List Char × List Char)
deriving DecidableEq, Repr

/-- Split a character list on a separator character. -/
def splitOnChar (sep : Char) : List Char → List (List Char)
  | [] => [[]]
  | c :: cs =>
    let r := splitOnChar sep cs
    if c = sep then [] :: r
    else
      match r with
      | [] => [[c]]
      | h :: t => (c :: h) :: t

/-- Parse one `key=value` query segment (a segment without an equals sign
is a key with empty value, as in `URLSearchParams`). -/
def parseKV (piece : List Char) : List Char × List Char :=
  let k := piece.takeWhile fun c => c != '='
  (k, (piece.drop k.length).drop 1)

/-- Parse a query string into key/value pairs, dropping empty segments
(as `URLSearchParams` does). -/
def parseQuery (s : List Char) : List (List Char × List Char) :=
  ((splitOnChar '&' s).filter fun piece => !piece.isEmpty).map parseKV

/-- Model of `new URL(s)`: `none` models the constructor throwing. -/
def parseUrl (s : List Char) : Option UrlParts :=
  let scheme := s.takeWhile Char.isAlpha
  if scheme.isEmpty then none
  else if ("://".data).isPrefixOf (s.drop scheme.length) then
    let base := s.takeWhile fun c => c != '?'
    some { base := base, query := parseQuery ((s.drop base.length).drop 1) }
  else none

/-- `URLSearchParams.set`: replace the value of the first occurrence of
the key in place, drop any further occurrences, or append the pair if
the key is absent. -/
def setParamList (k v : List Char) : List (List Char × List Char) →
    List (List Char × List Char)
  | [] => [(k, v)]
  | (k', v') :: rest =>
    if k' = k then (k, v) :: rest.filter fun kv => kv.1 ≠ k
    else (k', v') :: setParamList k v rest

/-- Look a key up in a query-parameter list (`URLSearchParams.get`). -/
def getParam (k : List Char) (q : List (List Char × List Char)) : Option (List Char) :=
  (q.find? fun kv => kv.1 = k).map fun kv => kv.2

/-- Serialise one query pair. -/
def serializeKV (kv : List Char × List Char) : List Char :=
  kv.1 ++ '=' :: kv.2

/-- Serialise a query-parameter list, ampersand-separated. -/
def serializeQuery : List (List Char × List Char) → List Char
  | [] => []
  | [kv] => serializeKV kv
  | kv :: rest => serializeKV kv ++ '&' :: serializeQuery rest

/-- Model of `URL.toString()`. -/
def serializeUrl (u : UrlParts) : List Char :=
  match u.query with
  | [] => u.base
  | _ => u.base ++ '?' :: serializeQuery u.query

/-- `url.searchParams.set('autoplay', '0')` applied to a parsed URL. -/
def setAutoplayZero (u : UrlParts) : UrlParts :=
  { u with query := setParamList "autoplay".data "0".data u.query }

/-- JavaScript truthiness of an optional string: present and nonempty. -/
def optTruthy (o : Option String) : Bool :=
  match o with
  | none => false
  | some s => !s.data.isEmpty

/-- `getMediaSrc` from `MediaItem.tsx`.  The Drive branch builds the
preview URL from the file id; the YouTube branch parses the stored `src`,
forces `autoplay=0` and re-serialises, falling back to the raw stored
string when `new URL` throws; every other item returns `src` unchanged
(which is `undefined`, i.e. `none`, when `src` is missing). -/
def getMediaSrc (item : MediaItem) : Option String :=
  if item.type == MediaType.gdrive && optTruthy item.driveId then
    some ("https://drive.google.com/file/d/" ++ item.driveId.getD "" ++ "/preview")
  else if item.type == MediaType.youtube && optTruthy item.src then
    let s := item.src.getD ""
    match parseUrl s.data with
    | some u => some (String.mk (serializeUrl (setAutoplayZero u)))
    | none => some s
  else item.src

/-! ### The drawing layer (`DrawingCanvas.tsx`)

The canvas raster is modelled as a display list of stroked segments and
`canvas.toDataURL()` as an explicit, injective serialisation of that
list; the component's mouse handlers become a step function over mouse
events.  The null-reference guards on `canvasRef.current` and the 2D
context are dropped: the embedding describes the mounted component. -/

/-- One stroked segment, produced by one `mouseMove` while drawing:
`lineTo(x, y); stroke()` with the current stroke style and line width. -/
structure Seg where
  x1 : Int
  y1 : Int
  x2 : Int
  y2 : Int
  strokeStyle : String
  lineWidth : Int
deriving DecidableEq, Repr

/-- Serialise one segment for the data-URL model. -/
def encodeSeg (s : Seg) : String :=
  toString s.x1 ++ "," ++ toString s.y1 ++ "," ++ toString s.x2 ++ "," ++
    toString s.y2 ++ "," ++ s.strokeStyle ++ "," ++ toString s.lineWidth

/-- Model of `canvas.toDataURL()`: an opaque, injective encoding of the
raster contents as a string. -/
def toDataURL (raster : List Seg) : String :=
  "data:image/png;base64," ++ String.intercalate ";" (raster.map encodeSeg)

/-- The props of `DrawingCanvas` that the mouse handlers read. -/
structure DrawProps where
  isDrawMode : Bool
  brushColor : String
  brushSize : Int
  isEraser : Bool
deriving DecidableEq, Repr

/-- The state of the mounted `DrawingCanvas`, together with the history
of `onDrawingChange` invocations (`commits`, oldest first) and the
parent's current `drawingData` string that `onDrawingChange` sets. -/
structure DCState where
  isDrawing : Bool
  lastPoint : Option (Int × Int)
  raster : List Seg
  drawingData : String
  commits : List String
deriving DecidableEq, Repr

/-- Mouse events delivered to the canvas element. -/
inductive MouseEvent where
  | down (x y : Int)
  | move (x y : Int)
  | up
  | leave
deriving DecidableEq, Repr

/-- The stroke style chosen by `draw`:
`context.strokeStyle = isEraser ? '#ffffff' : brushColor`. -/
def strokeStyleOf (p : DrawProps) : String :=
  if p.isEraser then "#ffffff" else p.brushColor

/-- One mouse event handled by `DrawingCanvas`:
`startDrawing` (mouse down), `draw` (mouse move) and `stopDrawing`
(mouse up and mouse leave), exactly as guarded in the source. -/
def dcStep (p : DrawProps) (s : DCState) : MouseEvent → DCState
  | .down x y =>
    if p.isDrawMode then { s with isDrawing := true, lastPoint := some (x, y) }
    else s
  | .move x y =>
    if s.isDrawing then
      match s.lastPoint with
      | some q =>
        { s with
          raster := s.raster ++
            [{ x1 := q.1, y1 := q.2, x2 := x, y2 := y
               strokeStyle := strokeStyleOf p, lineWidth := p.brushSize }]
          lastPoint := some (x, y) }
      | none => { s with lastPoint := some (x, y) }
    else s
  | .up =>
    if s.isDrawing then
      { s with isDrawing := false
               drawingData := toDataURL s.raster
               commits := s.commits ++ [toDataURL s.raster] }
    else s
  | .leave =>
    if s.isDrawing then
      { s with isDrawing := false
               drawingData := toDataURL s.raster
               commits := s.commits ++ [toDataURL s.raster] }
    else s

/-- Run a list of mouse events through `dcStep`. -/
def dcRun (p : DrawProps) (s : DCState) (evs : List MouseEvent) : DCState :=
  evs.foldl (dcStep p) s

/-- `clearCanvas` from `DrawingCanvas.tsx`:
`context.clearRect(0, 0, canvas.width, canvas.height)` — the rectangle is
the whole canvas, so the display list becomes empty — followed by
`onDrawingChange('')`. -/
def clearCanvas (s : DCState) : DCState :=
  { s with raster := [], drawingData := "", commits := s.commits ++ [""] }

/-! ### Per-pixel effect of a stroke

For the eraser claim the display list is too coarse: what matters is the
colour left on a raster pixel covered by the brush footprint.  With the
default compositing rule `source-over` and an opaque stroke style, every
covered pixel takes the stroke colour, whatever it held before. -/

/-- A raster pixel: fully transparent, or an opaque colour. -/
inductive Pixel where
  | transparent
  | rgba (color : String)
deriving DecidableEq, Repr

/-- The value of a pixel covered by the brush footprint after one stroke
of `draw` in `DrawingCanvas.tsx`: the context keeps the default
`source-over` compositing rule and strokes with
`isEraser ? '#ffffff' : brushColor`, so the covered pixel becomes opaque
in that colour regardless of its previous value. -/
def strokePixel (isEraser : Bool) (brushColor : String) (_prev : Pixel) : Pixel :=
  Pixel.rgba (if isEraser then "#ffffff" else brushColor)

/-! ### The persistence boundary and application state
(`PortfolioCanvas.tsx`) -/

/-- A field of the fetched JSON document as the load handler sees it:
absent (or falsy), present but failing its type check
(`Array.isArray` / `typeof === 'string'`), or well typed. -/
inductive Field (α : Type) where
  | missing
  | malformed
  | ok (value : α)
deriving DecidableEq, Repr

/-- The persisted `portfolio.json` document shape. -/
structure PortfolioDoc where
  mediaItems : Field (List MediaItem)
  categories : Field (List CategoryLabel)
  textElements : Field (List TextElementType)
  drawingData : Field String
deriving DecidableEq, Repr

/-- The slice of `PortfolioCanvas` component state that the claims
touch. -/
structure AppState where
  isEditMode : Bool
  isDrawMode : Bool
  mediaItems : List MediaItem
  categories : List CategoryLabel
  textElements : List TextElementType
  selectedTextId : Option String
  drawingData : String
deriving DecidableEq, Repr

/-- The initial component state on mount, parameterised by the default
content imported from `portfolioData.ts`: `useState(defaultMediaItems)`,
`useState(defaultCategories)`, `useState<TextElementType[]>([])`,
`useState<string | null>(null)`, `useState('')`. -/
def initState (defaultMedia : List MediaItem) (defaultCats : List CategoryLabel) :
    AppState :=
  { isEditMode := false
    isDrawMode := false
    mediaItems := defaultMedia
    categories := defaultCats
    textElements := []
    selectedTextId := none
    drawingData := "" }

/-- The success handler of the `portfolio.json` fetch: each of the four
collections is applied independently, only when its field passes its
check; nothing else in the state is touched. -/
def loadApply (doc : PortfolioDoc) (s : AppState) : AppState :=
  { s with
    mediaItems := match doc.mediaItems with | .ok v => v | _ => s.mediaItems
    categories := match doc.categories with | .ok v => v | _ => s.categories
    textElements := match doc.textElements with | .ok v => v | _ => s.textElements
    drawingData := match doc.drawingData with | .ok v => v | _ => s.drawingData }

/-- The JSON document produced by `saveLayout`:
`JSON.stringify({ mediaItems, categories, textElements, drawingData })`
always emits all four fields, well typed. -/
def saveLayoutDoc (s : AppState) : PortfolioDoc :=
  { mediaItems := .ok s.mediaItems
    categories := .ok s.categories
    textElements := .ok s.textElements
    drawingData := .ok s.drawingData }

/-- The fresh text element built by `addTextElement`; `now` models the
`Date.now()` reading and `r1`, `r2` the two `Math.random() * 3000`
samples of the spawn position. -/
def newTextElement (now : Nat) (r1 r2 : Int) : TextElementType :=
  { id := "text-" ++ toString now
    text := "Double-click to edit"
    x := 2000 + r1
    y := 2000 + r2
    fontSize := 24
    fontFamily := "Heebo, sans-serif"
    color := "#000000"
    bold := false
    italic := false
    underline := false
    width := some 300 }

/-- The user-interface events that mutate the modelled state.  Events
carry the ambient inputs of their handlers (`Date.now()` readings,
random samples, the fetched document). -/
inductive UIEvent where
  | toggleEditMode
  | toggleDrawMode
  | addText (now : Nat) (r1 r2 : Int)
  | updateText (id : String) (u : TextUpdate)
  | deleteText (id : String)
  | selectText (id : String)
  | addMedia (now : Nat) (item : MediaItem)
  | updateMedia (id : String) (u : MediaItemUpdate)
  | deleteMedia (id : String)
  | updateCategory (id : String) (u : CategoryUpdate)
  | clearDrawing
  | loadCompleted (doc : PortfolioDoc)
deriving DecidableEq, Repr

/-- Whether an event is the asynchronous `portfolio.json` load
completion (all other events are synchronous user interactions). -/
def UIEvent.isLoad : UIEvent → Bool
  | .loadCompleted _ => true
  | _ => false

/-- One UI event applied to the component state, following
`PortfolioCanvas.tsx`.  Guards record when the triggering control is
rendered at all: the add/draw/save controls only exist in edit mode;
text elements only deliver select and delete interactions when rendered
with `isEditMode && !isDrawMode`; selecting requires clicking a text
element that is currently in the collection.  `toggleEditMode` also
leaves draw mode and clears the selection (lines 248-252);
`deleteText` resets the selection when the deleted element was selected
(lines 242-246); `loadCompleted` applies the fetched document without
touching the selection (lines 163-176). -/
def step (s : AppState) : UIEvent → AppState
  | .toggleEditMode =>
    { s with isEditMode := !s.isEditMode, isDrawMode := false, selectedTextId := none }
  | .toggleDrawMode =>
    if s.isEditMode then { s with isDrawMode := !s.isDrawMode } else s
  | .addText now r1 r2 =>
    if s.isEditMode then
      { s with textElements := s.textElements ++ [newTextElement now r1 r2] }
    else s
  | .updateText id u =>
    { s with textElements := updateTextElementL id u s.textElements }
  | .deleteText id =>
    if s.isEditMode && !s.isDrawMode then
      { s with
        textElements := deleteTextElementL id s.textElements
        selectedTextId := if s.selectedTextId = some id then none else s.selectedTextId }
    else s
  | .selectText id =>
    if s.isEditMode && !s.isDrawMode &&
        s.textElements.any (fun el => el.id == id) then
      { s with selectedTextId := some id }
    else s
  | .addMedia now item =>
    if s.isEditMode then
      { s with mediaItems := s.mediaItems ++ [{ item with id := "media-" ++ toString now }] }
    else s
  | .updateMedia id u =>
    { s with mediaItems := updateMediaItemL id u s.mediaItems }
  | .deleteMedia id =>
    if s.isEditMode && !s.isDrawMode then
      { s with mediaItems := deleteMediaItemL id s.mediaItems }
    else s
  | .updateCategory id u =>
    { s with categories := updateCategoryL id u s.categories }
  | .clearDrawing =>
    if s.isEditMode && s.isDrawMode then { s with drawingData := "" } else s
  | .loadCompleted doc => loadApply doc s

/-- Run a list of UI events from a state. -/
def run (s : AppState) (evs : List UIEvent) : AppState :=
  evs.foldl step s

/-- The selection integrity property: `selectedTextId` is `null` or
names an element currently in `textElements`. -/
def selectionOk (s : AppState) : Bool :=
  match s.selectedTextId with
  | none => true
  | some id => s.textElements.any fun el => el.id == id

/-- Concrete YouTube media item used by witnesses: its stored embed URL
requests autoplay. -/
def ytEx : MediaItem :=
  { id := "yt1"
    type := .youtube
    src := some "https://www.youtube.com/embed/v1?autoplay=1&mute=1"
    x := 0
    y := 0
    width := 300
    title := "Y"
    description := "E" }

/-- Concrete YouTube media item holding the embed URL that `processUrl`
stores for the pasted URL `https://youtu.be/abc`. -/
def ytAbcEx : MediaItem :=
  { id := "yt2"
    type := .youtube
    src := some "https://www.youtube.com/embed/abc"
    x := 0
    y := 0
    width := 300
    title := "Y"
    description := "E" }

/-- Concrete media item used by witnesses. -/
def mItemEx : MediaItem :=
  { id := "m1"
    type := .local
    src := some "https://example.com/a.png"
    x := 10
    y := 20
    width := 300
    title := "T"
    description := "D" }

/-- Concrete drawing props used by witnesses. -/
def dpEx : DrawProps :=
  { isDrawMode := true, brushColor := "#000000", brushSize := 5, isEraser := false }

/-- Concrete idle drawing-canvas state used by witnesses. -/
def dcEx : DCState :=
  { isDrawing := false, lastPoint := none, raster := [], drawingData := "", commits := [] }

/-! ## Theorems -/

/-- C1: saving the four collections with `saveLayout` and loading the
resulting JSON document back through the `portfolio.json` load handler
reproduces the same entity lists — same ids and attribute values for
every defined field — and the same drawing string, whatever state the
loading application was in. -/
theorem saveLayout_load_roundtrip (s s0 : AppState) :
    (loadApply (saveLayoutDoc s) s0).mediaItems = s.mediaItems ∧
    (loadApply (saveLayoutDoc s) s0).categories = s.categories ∧
    (loadApply (saveLayoutDoc s) s0).textElements = s.textElements ∧
    (loadApply (saveLayoutDoc s) s0).drawingData = s.drawingData :=
  ⟨rfl, rfl, rfl, rfl⟩

/-- C3: evaluation of the eraser branch of `draw` in
`DrawingCanvas.tsx` at any covered pixel.  The context keeps the default
`source-over` compositing rule and strokes with the opaque colour
`#ffffff`, so an eraser stroke turns every covered pixel opaque white —
it never returns a pixel to transparency, contradicting the
transparency-clearing eraser that the claim (and the repository's own
`IMPLEMENTATION_FIXES.md`, which prescribes
`globalCompositeOperation = 'destination-out'`) requires. -/
theorem eraser_paints_opaque_white (prev : Pixel) (brushColor : String) :
    strokePixel true brushColor prev = Pixel.rgba "#ffffff" ∧
    (strokePixel true brushColor prev == Pixel.transparent) = false :=
  ⟨rfl, rfl⟩

/-- C4: `clearCanvas` wipes the whole raster (the cleared rectangle is
the full canvas) and records the empty string as the new persisted
drawing; clearing twice leaves the raster empty and the persisted
string empty both times, and the operation is total. -/
theorem clearCanvas_clears_and_repeats (s : DCState) :
    (clearCanvas s).raster = [] ∧ (clearCanvas s).drawingData = "" ∧
    (clearCanvas (clearCanvas s)).raster = [] ∧
    (clearCanvas (clearCanvas s)).drawingData = "" :=
  ⟨rfl, rfl, rfl, rfl⟩

/-- C6: the load handler applies each well-typed field of the fetched
document independently of the other fields, leaves a missing or
malformed `textElements` field at the state's previous value, and the
application mounts with an empty text-element collection — so a
document with no `textElements` yields an empty collection while its
`mediaItems` and `categories` are applied unaffected. -/
theorem load_defaults_independently (doc : PortfolioDoc) (s0 : AppState) :
    (∀ v, doc.mediaItems = Field.ok v → (loadApply doc s0).mediaItems = v) ∧
    (∀ v, doc.categories = Field.ok v → (loadApply doc s0).categories = v) ∧
    (∀ v, doc.textElements = Field.ok v → (loadApply doc s0).textElements = v) ∧
    (∀ v, doc.drawingData = Field.ok v → (loadApply doc s0).drawingData = v) ∧
    (doc.textElements = Field.missing ∨ doc.textElements = Field.malformed →
      (loadApply doc s0).textElements = s0.textElements) ∧
    (∀ dm dc, (initState dm dc).textElements = []) := by
  refine ⟨?_, ?_, ?_, ?_, ?_, fun _ _ => rfl⟩
  · intro v h; simp [loadApply, h]
  · intro v h; simp [loadApply, h]
  · intro v h; simp [loadApply, h]
  · intro v h; simp [loadApply, h]
  · rintro (h | h) <;> simp [loadApply, h]

/-- C6 witness: a concrete document with well-typed `mediaItems` and
`categories` but no `textElements`, loaded into the freshly mounted
state. -/
theorem load_defaults_independently_witness :
    (loadApply ⟨Field.ok [mItemEx], Field.ok [⟨"c1", "Cat", 1, 2⟩],
        Field.missing, Field.missing⟩ (initState [] [])).mediaItems = [mItemEx] ∧
    (loadApply ⟨Field.ok [mItemEx], Field.ok [⟨"c1", "Cat", 1, 2⟩],
        Field.missing, Field.missing⟩ (initState [] [])).categories = [⟨"c1", "Cat", 1, 2⟩] ∧
    (loadApply ⟨Field.ok [mItemEx], Field.ok [⟨"c1", "Cat", 1, 2⟩],
        Field.missing, Field.missing⟩ (initState [] [])).textElements = [] := by
  have h := load_defaults_independently
    ⟨Field.ok [mItemEx], Field.ok [⟨"c1", "Cat", 1, 2⟩], Field.missing, Field.missing⟩
    (initState [] [])
  exact ⟨h.1 _ rfl, h.2.1 _ rfl, (h.2.2.2.2.1 (Or.inl rfl)).trans rfl⟩

/-- C9: `update(id, partial)` and `delete(id)` on the media and text
collections are no-ops when no entity carries `id` (size and every
entity unchanged); `update` preserves the collection's length and
rewrites exactly the entities carrying `id` by merging the partial
attributes, leaving every other entity untouched. -/
theorem update_delete_collections :
    (∀ (items : List MediaItem) (id : String) (u : MediaItemUpdate),
      (∀ it ∈ items, it.id ≠ id) →
      updateMediaItemL id u items = items ∧ deleteMediaItemL id items = items) ∧
    (∀ (els : List TextElementType) (id : String) (u : TextUpdate),
      (∀ el ∈ els, el.id ≠ id) →
      updateTextElementL id u els = els ∧ deleteTextElementL id els = els) ∧
    (∀ (items : List MediaItem) (id : String) (u : MediaItemUpdate),
      (updateMediaItemL id u items).length = items.length ∧
      ∀ i : Nat, (updateMediaItemL id u items)[i]? =
        (items[i]?).map fun it => if it.id = id then applyMediaUpdate it u else it) ∧
    (∀ (els : List TextElementType) (id : String) (u : TextUpdate),
      (updateTextElementL id u els).length = els.length ∧
      ∀ i : Nat, (updateTextElementL id u els)[i]? =
        (els[i]?).map fun el => if el.id = id then applyTextUpdate el u else el) := by
  refine ⟨?_, ?_, ?_, ?_⟩
  · intro items id u h
    constructor
    · have : ∀ it ∈ items, (if it.id = id then applyMediaUpdate it u else it) = it := by
        intro it hit
        rw [if_neg (h it hit)]
      calc items.map (fun it => if it.id = id then applyMediaUpdate it u else it)
          = items.map (fun it => it) := List.map_congr_left this
        _ = items := by simp
    · refine List.filter_eq_self.mpr ?_
      intro it hit
      simpa using h it hit
  · intro els id u h
    constructor
    · have : ∀ el ∈ els, (if el.id = id then applyTextUpdate el u else el) = el := by
        intro el hel
        rw [if_neg (h el hel)]
      calc els.map (fun el => if el.id = id then applyTextUpdate el u else el)
          = els.map (fun el => el) := List.map_congr_left this
        _ = els := by simp
    · refine List.filter_eq_self.mpr ?_
      intro el hel
      simpa using h el hel
  · intro items id u
    exact ⟨List.length_map _ _, fun i => List.getElem?_map _ _ _⟩
  · intro els id u
    exact ⟨List.length_map _ _, fun i => List.getElem?_map _ _ _⟩

/-- C9 witness: updating and deleting an absent id on a one-item media
collection leaves it unchanged. -/
theorem update_delete_collections_witness :
    updateMediaItemL "absent" {} [mItemEx] = [mItemEx] ∧
    deleteMediaItemL "absent" [mItemEx] = [mItemEx] :=
  update_delete_collections.1 [mItemEx] "absent" {} (by decide)

/-- Mouse moves while a stroke is in progress keep `isDrawing` set and
never touch the commit log or the persisted drawing string: `draw` only
mutates the visible raster. -/
theorem dcRun_moves_commits (p : DrawProps) (ms : List (Int × Int)) :
    ∀ s : DCState, s.isDrawing = true →
      (dcRun p s (ms.map fun q => MouseEvent.move q.1 q.2)).isDrawing = true ∧
      (dcRun p s (ms.map fun q => MouseEvent.move q.1 q.2)).commits = s.commits ∧
      (dcRun p s (ms.map fun q => MouseEvent.move q.1 q.2)).drawingData = s.drawingData := by
  induction ms with
  | nil => exact fun s h => ⟨h, rfl, rfl⟩
  | cons q ms ih =>
    intro s h
    have hstep : (dcStep p s (.move q.1 q.2)).isDrawing = true ∧
        (dcStep p s (.move q.1 q.2)).commits = s.commits ∧
        (dcStep p s (.move q.1 q.2)).drawingData = s.drawingData := by
      cases hl : s.lastPoint <;> simp [dcStep, h, hl]
    have hrest := ih (dcStep p s (.move q.1 q.2)) hstep.1
    exact ⟨hrest.1, hrest.2.1.trans hstep.2.1, hrest.2.2.trans hstep.2.2⟩

/-- C5: over a full stroke — mouse down, any sequence of mouse moves,
then mouse up — the serialized drawing is committed exactly once, at
stroke completion: neither the mouse down nor any intermediate move
invokes `onDrawingChange`, `stopDrawing` invokes it with the serialized
current raster, and the duplicate `stopDrawing` fired by a subsequent
mouse leave is a no-op. -/
theorem stroke_commits_once (p : DrawProps) (s0 s1 s2 s3 : DCState) (x y : Int)
    (ms : List (Int × Int))
    (hp : p.isDrawMode = true)
    (h1 : s1 = dcStep p s0 (.down x y))
    (h2 : s2 = dcRun p s1 (ms.map fun q => MouseEvent.move q.1 q.2))
    (h3 : s3 = dcStep p s2 .up) :
    s1.commits = s0.commits ∧ s1.drawingData = s0.drawingData ∧
    s2.commits = s0.commits ∧ s2.drawingData = s0.drawingData ∧
    s3.commits = s0.commits ++ [toDataURL s2.raster] ∧
    s3.drawingData = toDataURL s2.raster ∧
    dcStep p s3 .leave = s3 := by
  have hs1 : s1 = { s0 with isDrawing := true, lastPoint := some (x, y) } := by
    rw [h1]; simp [dcStep, hp]
  have h1d : s1.isDrawing = true := by rw [hs1]
  have hmv := dcRun_moves_commits p ms s1 h1d
  rw [← h2] at hmv
  have hc1 : s1.commits = s0.commits := by rw [hs1]
  have hd1 : s1.drawingData = s0.drawingData := by rw [hs1]
  have hc2 : s2.commits = s0.commits := hmv.2.1.trans hc1
  have hd2 : s2.drawingData = s0.drawingData := hmv.2.2.trans hd1
  have hs3 : s3 = { s2 with
      isDrawing := false
      drawingData := toDataURL s2.raster
      commits := s2.commits ++ [toDataURL s2.raster] } := by
    rw [h3]; simp [dcStep, hmv.1]
  have h3d : s3.isDrawing = false := by rw [hs3]
  refine ⟨hc1, hd1, hc2, hd2, ?_, ?_, ?_⟩
  · rw [hs3]; simp [hc2]
  · rw [hs3]
  · simp [dcStep, h3d]

/-- C5 witness: a one-move stroke from the idle canvas commits exactly
the serialization of the stroked segment. -/
theorem stroke_commits_once_witness :
    (dcStep dpEx (dcRun dpEx (dcStep dpEx dcEx (.down 0 0))
        ([((1 : Int), (1 : Int))].map fun q => MouseEvent.move q.1 q.2)) .up).commits =
      ["data:image/png;base64,0,0,1,1,#000000,5"] := by
  have h := stroke_commits_once dpEx dcEx _ _ _ 0 0 [(1, 1)] rfl rfl rfl rfl
  exact h.2.2.2.2.1.trans (by decide)

/-- Filtering preserves a satisfied `any` when the tested predicate
forces the filter predicate. -/
theorem any_filter_of_imp {α : Type} (l : List α) (p q : α → Bool)
    (h : l.any p = true) (himp : ∀ x, p x = true → q x = true) :
    (l.filter q).any p = true := by
  induction l with
  | nil => simp at h
  | cons a t ih =>
    rw [List.any_cons] at h
    by_cases hpa : p a = true
    · have hqa := himp a hpa
      simp [List.filter_cons, hqa, List.any_cons, hpa]
    · have hta : t.any p = true := by
        rcases Bool.or_eq_true_iff.mp h with h' | h'
        · exact absurd h' hpa
        · exact h'
      by_cases hqa : q a = true
      · simp [List.filter_cons, hqa, List.any_cons, ih hta]
      · simp [List.filter_cons, hqa, ih hta]

/-- `updateTextElement` never changes any element's id, so membership
tests by id are unaffected. -/
theorem any_id_updateTextElementL (id tid : String) (u : TextUpdate)
    (l : List TextElementType) :
    (updateTextElementL id u l).any (fun el => el.id == tid) =
      l.any fun el => el.id == tid := by
  induction l with
  | nil => rfl
  | cons a t ih =>
    simp only [updateTextElementL, List.map_cons, List.any_cons] at ih ⊢
    by_cases hc : a.id = id
    · rw [if_pos hc]
      have hid : (applyTextUpdate a u).id = a.id := rfl
      rw [hid, ih]
    · rw [if_neg hc, ih]

/-- Introduction rule for `selectionOk`. -/
theorem selectionOk_of_any (s : AppState)
    (h : ∀ tid, s.selectedTextId = some tid →
      (s.textElements.any fun el => el.id == tid) = true) :
    selectionOk s = true := by
  unfold selectionOk
  cases hs : s.selectedTextId with
  | none => rfl
  | some tid => exact h tid hs

/-- Elimination rule for `selectionOk`. -/
theorem any_of_selectionOk (s : AppState) (tid : String)
    (h : selectionOk s = true) (hsel : s.selectedTextId = some tid) :
    (s.textElements.any fun el => el.id == tid) = true := by
  unfold selectionOk at h
  rw [hsel] at h
  exact h

/-- Every synchronous user-interaction event preserves selection
integrity. -/
theorem step_preserves_selectionOk (s : AppState) (e : UIEvent)
    (he : e.isLoad = false) (h : selectionOk s = true) :
    selectionOk (step s e) = true := by
  cases e with
  | toggleEditMode => rfl
  | toggleDrawMode => simp only [step]; split <;> exact h
  | addText now r1 r2 =>
    simp only [step]; split
    · apply selectionOk_of_any
      intro tid hsel
      show ((s.textElements ++ [newTextElement now r1 r2]).any
        fun el => el.id == tid) = true
      rw [List.any_append]
      have := any_of_selectionOk s tid h hsel
      simp [this]
    · exact h
  | updateText id u =>
    apply selectionOk_of_any
    intro tid hsel
    show ((updateTextElementL id u s.textElements).any fun el => el.id == tid) = true
    rw [any_id_updateTextElementL]
    exact any_of_selectionOk s tid h hsel
  | deleteText id =>
    simp only [step]; split
    · apply selectionOk_of_any
      intro tid hsel
      have hsel' : (if s.selectedTextId = some id then none else s.selectedTextId) =
          some tid := hsel
      show ((deleteTextElementL id s.textElements).any fun el => el.id == tid) = true
      by_cases heq : s.selectedTextId = some id
      · rw [if_pos heq] at hsel'
        exact absurd hsel' (by simp)
      · rw [if_neg heq] at hsel'
        have htid : tid ≠ id := by
          intro hcontra
          exact heq (by rw [hsel', hcontra])
        have hany := any_of_selectionOk s tid h hsel'
        unfold deleteTextElementL
        refine any_filter_of_imp _ _ _ hany ?_
        intro el hel
        have hid : el.id = tid := by simpa using hel
        simp [bne_iff_ne, hid, htid]
    · exact h
  | selectText id =>
    simp only [step]; split
    · rename_i hcond
      simp only [Bool.and_eq_true] at hcond
      apply selectionOk_of_any
      intro tid hsel
      have hsel' : (some id : Option String) = some tid := hsel
      obtain rfl : id = tid := by simpa using hsel'
      show (s.textElements.any fun el => el.id == id) = true
      exact hcond.2
    · exact h
  | addMedia now item => simp only [step]; split <;> exact h
  | updateMedia id u => exact h
  | deleteMedia id => simp only [step]; split <;> exact h
  | updateCategory id u => exact h
  | clearDrawing => simp only [step]; split <;> exact h
  | loadCompleted doc => simp [UIEvent.isLoad] at he

/-- Selection integrity holds along every run of load-free events. -/
theorem run_selectionOk (evs : List UIEvent) :
    ∀ s : AppState, selectionOk s = true → (∀ e ∈ evs, e.isLoad = false) →
      selectionOk (run s evs) = true := by
  induction evs with
  | nil => exact fun s h _ => h
  | cons e t ih =>
    intro s h hall
    have he := hall e (by simp)
    exact ih (step s e) (step_preserves_selectionOk s e he h)
      fun e' he' => hall e' (by simp [he'])

/-- C10 (amended): in every state reachable from the mounted state by
synchronous user-interaction events (everything except the asynchronous
`portfolio.json` load completion), `selectedTextId` is `null` or the id
of an element currently in `textElements`; deleting the selected text
element resets the selection to `null`; toggling edit mode clears the
selection.  The load completion is excluded because its handler
replaces `textElements` without resetting `selectedTextId`. -/
theorem selection_integrity :
    (∀ (dm : List MediaItem) (dc : List CategoryLabel) (evs : List UIEvent),
      (∀ e ∈ evs, e.isLoad = false) →
      selectionOk (run (initState dm dc) evs) = true) ∧
    (∀ (s : AppState) (tid : String), s.isEditMode = true → s.isDrawMode = false →
      s.selectedTextId = some tid →
      (step s (.deleteText tid)).selectedTextId = none) ∧
    (∀ s : AppState, (step s .toggleEditMode).selectedTextId = none) := by
  refine ⟨?_, ?_, fun s => rfl⟩
  · intro dm dc evs hall
    exact run_selectionOk evs (initState dm dc) rfl hall
  · intro s tid he hd hsel
    simp [step, he, hd, hsel]

/-- C10 counterexample: the claim as stated — over all reachable states,
including the asynchronous load completion — is false.  In edit mode the
user adds and selects a text element; the fetch of `portfolio.json` then
resolves with a well-typed empty `textElements` array, which the load
handler applies without resetting `selectedTextId`, stranding the
selection on an id that is no longer in the collection. -/
theorem selection_integrity_counterexample :
    selectionOk (run (initState [] [])
      [UIEvent.toggleEditMode, UIEvent.addText 7 0 0, UIEvent.selectText "text-7",
        UIEvent.loadCompleted ⟨Field.missing, Field.missing, Field.ok [], Field.missing⟩]) =
      false := by decide

/-- C10 witness: the same interaction sequence without the load
completion keeps the selection valid. -/
theorem selection_integrity_witness :
    selectionOk (run (initState [] [])
      [UIEvent.toggleEditMode, UIEvent.addText 7 0 0, UIEvent.selectText "text-7"]) =
      true :=
  selection_integrity.1 [] [] _ (by decide)

/-- One unfolding step of the regular-expression scan. -/
theorem scanWith_cons {α : Type} (tryAt : List Char → Option α) (c : Char) (cs : List Char) :
    scanWith tryAt (c :: cs) =
      (tryAt (c :: cs)).orElse fun _ => scanWith tryAt cs := rfl

/-- If the attempt succeeds at the head of a nonempty input, the scan
returns that result. -/
theorem scanWith_of_tryAt {α : Type} (tryAt : List Char → Option α) (s : List Char) (r : α)
    (hs : s ≠ []) (h : tryAt s = some r) : scanWith tryAt s = some r := by
  cases s with
  | nil => exact absurd rfl hs
  | cons c cs => rw [scanWith_cons, h]; rfl

/-- Positions where the attempt fails can be skipped by the scan. -/
theorem scanWith_append_none {α : Type} (tryAt : List Char → Option α) (pre rest : List Char)
    (h : ∀ n, n < pre.length → tryAt ((pre ++ rest).drop n) = none) :
    scanWith tryAt (pre ++ rest) = scanWith tryAt rest := by
  induction pre with
  | nil => rfl
  | cons c pre ih =>
    have h0 : tryAt (c :: (pre ++ rest)) = none := by
      have := h 0 (by simp)
      simpa using this
    rw [List.cons_append, scanWith_cons, h0]
    have hrec : ∀ n, n < pre.length → tryAt ((pre ++ rest).drop n) = none := by
      intro n hn
      have := h (n + 1) (by simpa using Nat.succ_lt_succ hn)
      simpa using this
    show scanWith tryAt (pre ++ rest) = scanWith tryAt rest
    exact ih hrec

/-- `takeWhile` captures exactly a block whose characters all satisfy
the predicate when the following character (if any) does not. -/
theorem takeWhile_append_of_all (p : Char → Bool) (blk suf : List Char)
    (h1 : ∀ c ∈ blk, p c = true)
    (h2 : suf = [] ∨ ∃ c cs, suf = c :: cs ∧ p c = false) :
    (blk ++ suf).takeWhile p = blk := by
  induction blk with
  | nil =>
    rcases h2 with rfl | ⟨c, cs, rfl, hc⟩
    · rfl
    · simp [List.takeWhile_cons, hc]
  | cons a t ih =>
    have ha := h1 a (by simp)
    simp only [List.cons_append, List.takeWhile_cons, ha, if_true]
    rw [ih fun c hc => h1 c (by simp [hc])]

/-- `takeWhile` is the identity when every character satisfies the
predicate. -/
theorem takeWhile_eq_self_of_all (p : Char → Bool) (l : List Char)
    (h : ∀ c ∈ l, p c = true) : l.takeWhile p = l := by
  induction l with
  | nil => rfl
  | cons a t ih =>
    have ha := h a (by simp)
    simp only [List.takeWhile_cons, ha, if_true]
    rw [ih fun c hc => h c (by simp [hc])]

/-- A list is a prefix of itself followed by anything. -/
theorem isPrefixOf_append_self (l x : List Char) : l.isPrefixOf (l ++ x) = true := by
  induction l with
  | nil => exact List.isPrefixOf_nil_left
  | cons a t ih => simp [List.isPrefixOf, ih]

/-- The literal-then-run matcher captures exactly the block between the
literal and the first character outside the class. -/
theorem tryLitRun_capture (lit : List Char) (p : Char → Bool) (blk suf : List Char)
    (hblk : blk ≠ []) (h1 : ∀ c ∈ blk, p c = true)
    (h2 : suf = [] ∨ ∃ c cs, suf = c :: cs ∧ p c = false) :
    tryLitRun lit p (lit ++ (blk ++ suf)) = some blk := by
  unfold tryLitRun
  rw [isPrefixOf_append_self]
  simp only [if_true, List.drop_left]
  rw [takeWhile_append_of_all p blk suf h1 h2]
  simp [hblk]

/-- A pattern occurs in any list that ends with it. -/
theorem containsSub_append_right (pat pre : List Char) :
    containsSub pat (pre ++ pat) = true := by
  induction pre with
  | nil =>
    have hp : pat.isPrefixOf pat = true := by
      have h := isPrefixOf_append_self pat []
      rw [List.append_nil] at h
      exact h
    cases pat with
    | nil => rfl
    | cons c cs =>
      show ((c :: cs).isPrefixOf (c :: cs) || containsSub (c :: cs) cs) = true
      rw [hp]
      simp
  | cons a t ih =>
    show (pat.isPrefixOf (a :: (t ++ pat)) || containsSub pat (t ++ pat)) = true
    rw [ih]
    simp

/-- An `https://` URL without a question mark parses into itself with an
empty query list. -/
theorem parseUrl_https_noquery (rest : List Char)
    (h : ∀ c ∈ rest, (c != '?') = true) :
    parseUrl ("https://".data ++ rest) =
      some { base := "https://".data ++ rest, query := [] } := by
  have hscheme : ("https://".data ++ rest).takeWhile Char.isAlpha = "https".data := by
    have he : "https://".data ++ rest = "https".data ++ (':' :: '/' :: '/' :: rest) := rfl
    rw [he]
    exact takeWhile_append_of_all _ _ _ (by decide) (Or.inr ⟨':', _, rfl, by decide⟩)
  have hcl : ∀ c ∈ "https://".data, (c != '?') = true := by decide
  have hbase : ("https://".data ++ rest).takeWhile (fun c => c != '?') =
      "https://".data ++ rest := by
    refine takeWhile_eq_self_of_all _ _ ?_
    intro c hc
    rcases List.mem_append.mp hc with hc | hc
    · exact hcl c hc
    · exact h c hc
  simp only [parseUrl]
  rw [hscheme, hbase]
  have hdrop : ("https://".data ++ rest).drop ("https".data).length =
      ':' :: '/' :: '/' :: rest := rfl
  rw [hdrop]
  have hpre2 : ("://".data).isPrefixOf (':' :: '/' :: '/' :: rest) = true := by
    have he : (':' :: '/' :: '/' :: rest) = "://".data ++ rest := rfl
    rw [he]
    exact isPrefixOf_append_self _ _
  rw [hpre2]
  have h1 : ("https".data).isEmpty = false := by decide
  simp [h1, List.drop_length, parseQuery, splitOnChar]

/-- Setting a query parameter makes it retrievable with the set value. -/
theorem getParam_setParamList (k v : List Char) (q : List (List Char × List Char)) :
    getParam k (setParamList k v q) = some v := by
  induction q with
  | nil => simp [setParamList, getParam, List.find?]
  | cons kv rest ih =>
    by_cases hk : kv.1 = k
    · simp [setParamList, hk, getParam, List.find?]
    · unfold setParamList
      rw [if_neg hk]
      unfold getParam at ih ⊢
      rw [List.find?_cons]
      have : (decide (kv.1 = k)) = false := by simp [hk]
      rw [this]
      exact ih

/-- Shared computation of the YouTube branch of `getMediaSrc`: parse the
stored URL, force `autoplay=0`, re-serialise; fall back to the raw
string when parsing fails. -/
theorem getMediaSrc_youtube_aux (item : MediaItem) (s : String)
    (hty : item.type = MediaType.youtube)
    (hsrc : item.src = some s)
    (hne : s.data.isEmpty = false) :
    getMediaSrc item = some (match parseUrl s.data with
      | some u => String.mk (serializeUrl (setAutoplayZero u))
      | none => s) := by
  unfold getMediaSrc
  rw [hty, hsrc]
  simp only [optTruthy]
  rw [hne]
  cases hparse : parseUrl s.data <;> simp [hparse]

/-- C8: `getMediaSrc` is total and fails softly.  For every youtube item
with a truthy stored `src`: when the stored URL parses, the resolved URL
is exactly the stored URL re-serialised with the `autoplay` parameter
forced to `0` — the forced parameter is retrievable as `autoplay=0` even
if the stored URL requested `autoplay=1` — and when the stored URL fails
to parse, the raw stored string is returned unchanged. -/
theorem getMediaSrc_youtube_resolves (item : MediaItem) (s : String)
    (hty : item.type = MediaType.youtube)
    (hsrc : item.src = some s)
    (hne : s.data.isEmpty = false) :
    getMediaSrc item = some (match parseUrl s.data with
      | some u => String.mk (serializeUrl (setAutoplayZero u))
      | none => s) ∧
    ∀ u, parseUrl s.data = some u →
      getParam "autoplay".data (setAutoplayZero u).query = some "0".data := by
  refine ⟨getMediaSrc_youtube_aux item s hty hsrc hne, ?_⟩
  intro u _
  exact getParam_setParamList _ _ _

/-- C8 witness: a stored embed URL that requests autoplay resolves with
`autoplay` forced to `0` and the other parameter kept. -/
theorem getMediaSrc_youtube_resolves_witness :
    getMediaSrc ytEx = some "https://www.youtube.com/embed/v1?autoplay=0&mute=1" := by
  have h := getMediaSrc_youtube_resolves ytEx
    "https://www.youtube.com/embed/v1?autoplay=1&mute=1" rfl rfl (by decide)
  exact h.1.trans (by decide)

/-- C7: every pasted URL whose first Drive-pattern match sits at the end
of the prefix `pre` — in particular every URL of the form
`<scheme>drive.google.com/file/d/<id>/<anything>` — is classified as a
Drive item with exactly `<id>` extracted, and this takes precedence over
the YouTube, Vimeo and direct-link rules whatever the rest of the URL
contains. -/
theorem processUrl_drive (pre blk suf : List Char)
    (hblk : blk ≠ []) (hslash : ∀ c ∈ blk, c ≠ '/')
    (hpre : ∀ n, n < pre.length →
      tryDriveAt ((pre ++ (driveLit ++ (blk ++ '/' :: suf))).drop n) = none) :
    processUrl (String.mk (pre ++ (driveLit ++ (blk ++ '/' :: suf)))) =
      { type := MediaType.gdrive, driveId := some (String.mk blk) } := by
  have htry : tryDriveAt (driveLit ++ (blk ++ '/' :: suf)) = some blk := by
    unfold tryDriveAt
    refine tryLitRun_capture driveLit _ blk ('/' :: suf) hblk ?_ ?_
    · intro c hc
      simpa using hslash c hc
    · exact Or.inr ⟨'/', suf, rfl, by decide⟩
  have hmatch : driveMatch (pre ++ (driveLit ++ (blk ++ '/' :: suf))) = some blk := by
    unfold driveMatch
    rw [scanWith_append_none tryDriveAt pre _ hpre]
    exact scanWith_of_tryAt _ _ _ (List.cons_ne_nil _ _) htry
  have hmatch' :
      driveMatch (String.mk (pre ++ (driveLit ++ (blk ++ '/' :: suf)))).data = some blk :=
    hmatch
  unfold processUrl
  rw [hmatch']

/-- C7 witness: a real Drive sharing URL. -/
theorem processUrl_drive_witness :
    processUrl (String.mk ("https://".data ++ (driveLit ++ ("FILE123".data ++ '/' :: "view".data)))) =
      { type := MediaType.gdrive, driveId := some (String.mk "FILE123".data) } :=
  processUrl_drive "https://".data "FILE123".data "view".data
    (by decide) (by decide) (by decide)

/-- C2 counterexample: the claim as stated is false at the pasted URL
`youtu.be/abc`.  `processUrl` classifies it as a youtube item and stores
the embed URL `https://www.youtube.com/embed/abc`, which contains the
video id but carries no autoplay parameter at all (the string
`autoplay` does not occur in it); the autoplay-disabled parameter is
only added later, when `getMediaSrc` resolves the stored URL. -/
theorem processUrl_youtube_counterexample :
    processUrl "youtu.be/abc" =
      { type := MediaType.youtube, src := some "https://www.youtube.com/embed/abc" } ∧
    containsSub "autoplay".data "https://www.youtube.com/embed/abc".data = false :=
  ⟨by decide, by decide⟩

/-- C2 (amended): every pasted URL whose first YouTube-pattern match —
`youtube.com/watch?v=` or `youtu.be/` followed by the id — sits at the
end of the prefix `pre`, and which the Drive rule does not match, is
classified as a youtube item whose stored embed URL
`https://www.youtube.com/embed/<id>` contains exactly that id; the
stored URL carries no autoplay parameter — the autoplay-disabled
parameter appears when the item is resolved for rendering: `getMediaSrc`
on the stored URL yields the embed URL with `?autoplay=0` appended. -/
theorem processUrl_youtube_embed (lit pre blk suf : List Char)
    (hlit : lit = youtubeLit1 ∨ lit = youtubeLit2)
    (hblk : blk ≠ [])
    (hchars : ∀ c ∈ blk, c ≠ '&' ∧ c ≠ '?')
    (hsuf : suf = [] ∨ ∃ cs, suf = '&' :: cs)
    (hdrive : driveMatch (pre ++ (lit ++ (blk ++ suf))) = none)
    (hpre : ∀ n, n < pre.length →
      tryYoutubeAt ((pre ++ (lit ++ (blk ++ suf))).drop n) = none) :
    processUrl (String.mk (pre ++ (lit ++ (blk ++ suf)))) =
      { type := MediaType.youtube,
        src := some (String.mk ("https://www.youtube.com/embed/".data ++ blk)) } ∧
    containsSub blk ("https://www.youtube.com/embed/".data ++ blk) = true ∧
    ∀ item : MediaItem, item.type = MediaType.youtube →
      item.src = some (String.mk ("https://www.youtube.com/embed/".data ++ blk)) →
      getMediaSrc item =
        some (String.mk (("https://www.youtube.com/embed/".data ++ blk) ++
          "?autoplay=0".data)) ∧
      containsSub "autoplay=0".data
        (("https://www.youtube.com/embed/".data ++ blk) ++ "?autoplay=0".data) = true := by
  have hp1 : ∀ c ∈ blk, ((c != '&') = true) := by
    intro c hc
    simpa using (hchars c hc).1
  have hsuf' : suf = [] ∨ ∃ c cs, suf = c :: cs ∧ (c != '&') = false := by
    rcases hsuf with rfl | ⟨cs, rfl⟩
    · exact Or.inl rfl
    · exact Or.inr ⟨'&', cs, rfl, by decide⟩
  have hyt : tryYoutubeAt (lit ++ (blk ++ suf)) = some blk := by
    rcases hlit with rfl | rfl
    · unfold tryYoutubeAt
      rw [tryLitRun_capture youtubeLit1 _ blk suf hblk hp1 hsuf']
      rfl
    · unfold tryYoutubeAt
      have h0 : tryLitRun youtubeLit1 (fun c => c != '&')
          (youtubeLit2 ++ (blk ++ suf)) = none := rfl
      rw [h0]
      show tryLitRun youtubeLit2 (fun c => c != '&') (youtubeLit2 ++ (blk ++ suf)) = some blk
      exact tryLitRun_capture youtubeLit2 _ blk suf hblk hp1 hsuf'
  have hmatch : youtubeMatch (pre ++ (lit ++ (blk ++ suf))) = some blk := by
    unfold youtubeMatch
    rw [scanWith_append_none tryYoutubeAt pre _ hpre]
    refine scanWith_of_tryAt _ _ _ ?_ hyt
    rcases hlit with rfl | rfl
    · exact List.cons_ne_nil _ _
    · exact List.cons_ne_nil _ _
  have hdrive' :
      driveMatch (String.mk (pre ++ (lit ++ (blk ++ suf)))).data = none := hdrive
  have hmatch' :
      youtubeMatch (String.mk (pre ++ (lit ++ (blk ++ suf)))).data = some blk := hmatch
  refine ⟨?_, containsSub_append_right blk _, ?_⟩
  · unfold processUrl
    rw [hdrive', hmatch']
    rfl
  · intro item hty hsrc
    have hne : (String.mk ("https://www.youtube.com/embed/".data ++ blk)).data.isEmpty =
        false := rfl
    have haux := getMediaSrc_youtube_aux item _ hty hsrc hne
    have hw : ∀ c ∈ "www.youtube.com/embed/".data, (c != '?') = true := by decide
    have hq : ∀ c ∈ "www.youtube.com/embed/".data ++ blk, (c != '?') = true := by
      intro c hc
      rcases List.mem_append.mp hc with hc | hc
      · exact hw c hc
      · simpa using (hchars c hc).2
    have hparse : parseUrl (String.mk ("https://www.youtube.com/embed/".data ++ blk)).data =
        some { base := "https://www.youtube.com/embed/".data ++ blk, query := [] } :=
      parseUrl_https_noquery ("www.youtube.com/embed/".data ++ blk) hq
    rw [hparse] at haux
    refine ⟨haux, ?_⟩
    have he : (("https://www.youtube.com/embed/".data ++ blk) ++ "?autoplay=0".data) =
        ((("https://www.youtube.com/embed/".data ++ blk) ++ ['?']) ++ "autoplay=0".data) :=
      (List.append_assoc _ ['?'] _).symm
    rw [he]
    exact containsSub_append_right _ _

/-- C2 witness: the pasted URL `https://youtu.be/abc` is classified as a
youtube item with embed URL `https://www.youtube.com/embed/abc`, and
resolving that stored URL yields it with `autoplay=0` appended. -/
theorem processUrl_youtube_embed_witness :
    processUrl "https://youtu.be/abc" =
      { type := MediaType.youtube, src := some "https://www.youtube.com/embed/abc" } ∧
    getMediaSrc ytAbcEx = some "https://www.youtube.com/embed/abc?autoplay=0" := by
  have h := processUrl_youtube_embed youtubeLit2 "https://".data "abc".data []
    (Or.inr rfl) (by decide) (by decide) (Or.inl rfl) (by decide) (by decide)
  exact ⟨h.1, (h.2.2 ytAbcEx rfl rfl).1⟩

end ZoomFolio


